import Mathlib

/-
Verification of the transparency-log client core of rekor-server.

The embedding mirrors `app/trillian_client.go` and the admission-policy file
(`IsFileTypeAllowed`).  External collaborators — the gRPC stubs of the
Trillian log service, the `types.LogRootV1` binary decoder, the RFC 6962
hasher and the `merkle` proof verifier, and `http.DetectContentType` — are
out of scope of the repository and are passed in as oracle parameters, so
every theorem quantifies over their behaviour.  Go's `(value, error)` return
pairs are modelled as products of `Option`s (both components independent, as
in Go), a `nil`-pointer dereference is the `Outcome.panics` result, and
`logging.Logger.Fatal` (process exit) is the `Outcome.fatal` result.
-/

namespace RekorServer

/-- A Go error carrying a gRPC status code (`status.Code(err)` extracts it). -/
structure GoError where
  code : Nat
deriving DecidableEq, Repr

/-- Model of `status.Code(err)`: `codes.OK` (0) for a nil error, otherwise the
error's own code. -/
def statusCode : Option GoError → Nat
  | none => 0
  | some e => e.code

/-- Result of running a Go function: a normal return, a runtime panic
(nil-pointer dereference), or process termination via `logging.Logger.Fatal`. -/
inductive Outcome (α : Type) where
  | ok : α → Outcome α
  | panics : Outcome α
  | fatal : GoError → Outcome α
deriving DecidableEq, Repr

/-- `trillian.SignedLogRoot`: the serialized log-root bytes. -/
structure SignedLogRoot where
  logRoot : List Nat
deriving DecidableEq, Repr

/-- `trillian.GetLatestSignedLogRootResponse` (the `SignedLogRoot` field is a
pointer, hence `Option`). -/
structure GetLatestSignedLogRootResponse where
  signedLogRoot : Option SignedLogRoot
deriving DecidableEq, Repr

/-- `types.LogRootV1` after deserialization: tree size and root hash. -/
structure LogRootV1 where
  treeSize : Nat
  rootHash : List Nat
deriving DecidableEq, Repr

/-- `trillian.Proof`: a leaf index and the audit-path hashes. -/
structure Proof where
  leafIndex : Int
  hashes : List (List Nat)
deriving DecidableEq, Repr

/-- `trillian.GetInclusionProofByHashResponse`: the repeated `Proof` field. -/
structure GetInclusionProofByHashResponse where
  proof : List Proof
deriving DecidableEq, Repr

/-- `trillian.GetLeavesByHashResponse`: the returned leaf values. -/
structure GetLeavesByHashResponse where
  leaves : List (List Nat)
deriving DecidableEq, Repr

/-- `google.rpc.Status` attached to a queued leaf. -/
structure RpcStatus where
  code : Nat
deriving DecidableEq, Repr

/-- `trillian.QueuedLogLeaf` (its `Status` field is a pointer). -/
structure QueuedLogLeaf where
  status : Option RpcStatus
deriving DecidableEq, Repr

/-- `trillian.QueueLeafResponse` (its `QueuedLeaf` field is a pointer). -/
structure QueueLeafResponse where
  queuedLeaf : Option QueuedLogLeaf
deriving DecidableEq, Repr

/-- The protobuf getter chain `q.GetStatus().GetCode()`: each getter is
nil-safe and yields the zero value (code 0) on a nil receiver. -/
def getQueuedStatusCode (q : Option QueuedLogLeaf) : Nat :=
  match q with
  | none => 0
  | some leaf =>
    match leaf.status with
    | none => 0
    | some st => st.code

/-- The `Response` struct returned by every trillianclient operation. -/
structure Response where
  status : Nat
  getLeafResult : Option GetLeavesByHashResponse
  getProofResult : Option GetInclusionProofByHashResponse
deriving DecidableEq, Repr

/-- The Go zero value `&Response{}`. -/
def Response.empty : Response :=
  { status := 0, getLeafResult := none, getProofResult := none }

/-- `trillianclient.root()`: issue `GetLatestSignedLogRoot` (the RPC outcome
is the oracle `rpc`), propagate a transport error, otherwise decode
`resp.SignedLogRoot.LogRoot` with `UnmarshalBinary` (the oracle
`unmarshalBinary`).  Dereferencing a nil response or a nil `SignedLogRoot`
panics.  On any error the Go code returns the zero `types.LogRootV1{}`. -/
def root (rpc : Option GetLatestSignedLogRootResponse × Option GoError)
    (unmarshalBinary : List Nat → LogRootV1 × Option GoError) :
    Outcome (LogRootV1 × Option GoError) :=
  match rpc.2 with
  | some e => .ok ({ treeSize := 0, rootHash := [] }, some e)
  | none =>
    match rpc.1 with
    | none => .panics
    | some resp =>
      match resp.signedLogRoot with
      | none => .panics
      | some slr =>
        match unmarshalBinary slr.logRoot with
        | (_, some e) => .ok ({ treeSize := 0, rootHash := [] }, some e)
        | (rt, none) => .ok (rt, none)

/-- Oracle environment for one `getProof` call: the payload, the outcome of
the root RPC and of the binary decoder, the RFC 6962 leaf hasher, the
inclusion-proof RPC as a function of the request (leaf hash, tree size), and
the `merkle.LogVerifier.VerifyInclusionProof` library function with its Go
argument order (leafIndex, treeSize, proof hashes, root hash, leaf hash),
returning `none` on success and the verification error otherwise. -/
structure GetProofEnv where
  byteValue : List Nat
  getLatestSignedLogRoot : Option GetLatestSignedLogRootResponse × Option GoError
  unmarshalBinary : List Nat → LogRootV1 × Option GoError
  hashLeaf : List Nat → List Nat
  getInclusionProofByHash :
    List Nat → Nat → Option GetInclusionProofByHashResponse × Option GoError
  verifyInclusionProof :
    Int → Int → List (List Nat) → List Nat → List Nat → Option GoError

/-- The `for _, proof := range resp.Proof` loop of `getProof`: the first
verification failure, in proof order, or `none` when every proof verifies. -/
def firstVerifyFailure
    (verify : Int → Int → List (List Nat) → List Nat → List Nat → Option GoError)
    (rt : LogRootV1) (leafHash : List Nat) : List Proof → Option GoError
  | [] => none
  | p :: rest =>
    match verify p.leafIndex (rt.treeSize : Int) p.hashes rt.rootHash leafHash with
    | some e => some e
    | none => firstVerifyFailure verify rt leafHash rest

/-- `trillianclient.getProof`: fetch the latest root via `root()` (fail fast
on error), hash the payload, request an inclusion proof for the leaf hash at
the root's tree size, verify every returned proof against the fetched root
(returning `(&Response{}, err)` on the first failure), and otherwise return
the response together with `status.Code(err)` of the RPC error — note the Go
code returns a nil error on that final line even when the RPC itself failed. -/
def getProof (env : GetProofEnv) : Outcome (Response × Option GoError) :=
  match root env.getLatestSignedLogRoot env.unmarshalBinary with
  | .panics => .panics
  | .fatal e => .fatal e
  | .ok (_, some e) => .ok (Response.empty, some e)
  | .ok (rt, none) =>
    let leafHash := env.hashLeaf env.byteValue
    let resp := (env.getInclusionProofByHash leafHash rt.treeSize).1
    let err := (env.getInclusionProofByHash leafHash rt.treeSize).2
    match resp with
    | none =>
      .ok ({ status := statusCode err, getLeafResult := none, getProofResult := none },
        none)
    | some r =>
      match firstVerifyFailure env.verifyInclusionProof rt leafHash r.proof with
      | some ve => .ok (Response.empty, some ve)
      | none =>
        .ok ({ status := statusCode err, getLeafResult := none, getProofResult := some r },
          none)

/-- Names of the RPCs `getProof` can issue. -/
inductive RpcName where
  | getLatestSignedLogRoot
  | getInclusionProofByHash
deriving DecidableEq, Repr

/-- A `context.Background()` context: no deadline. -/
def contextBackground : Option Nat := none

/-- The timeout `getProof` installs with `context.WithTimeout`: 20 seconds. -/
def getProofTimeoutSeconds : Nat := 20

/-- The contexts `getProof` issues its RPCs under, in call order, each paired
with the deadline (in seconds) that its context carries.  `root()` builds its
own `context.Background()` internally, so the root RPC carries no deadline;
only `GetInclusionProofByHash` receives the 20-second `ctx` created at the
top of `getProof`, and it is issued only when `root()` returned no error. -/
def getProofRpcContexts (env : GetProofEnv) : List (RpcName × Option Nat) :=
  match root env.getLatestSignedLogRoot env.unmarshalBinary with
  | .ok (_, none) =>
    [(.getLatestSignedLogRoot, contextBackground),
     (.getInclusionProofByHash, some getProofTimeoutSeconds)]
  | _ => [(.getLatestSignedLogRoot, contextBackground)]

/-- `trillianclient.addLeaf`: wrap the payload as a leaf and call `QueueLeaf`
(the oracle, a function of the payload).  A non-nil RPC error is only printed
with `fmt.Println`.  The code then reads
`resp.QueuedLeaf.GetStatus().GetCode()` unconditionally: when the response is
nil this dereference panics; otherwise the queued leaf's status code becomes
the `Response.status` and a nil error is returned. -/
def addLeaf (byteValue : List Nat)
    (queueLeaf : List Nat → Option QueueLeafResponse × Option GoError) :
    Outcome (Response × Option GoError) :=
  match (queueLeaf byteValue).1 with
  | none => .panics
  | some r =>
    .ok ({ status := getQueuedStatusCode r.queuedLeaf,
           getLeafResult := none, getProofResult := none }, none)

/-- `trillianclient.getLeaf`: hash the payload, call `GetLeavesByHash` (the
oracle, a function of the leaf hash).  A non-nil RPC error is passed to
`logging.Logger.Fatal`, which terminates the process; otherwise the response
is returned with `status.Code(nil)` = OK and a nil error. -/
def getLeaf (byteValue : List Nat) (hashLeaf : List Nat → List Nat)
    (getLeavesByHash : List Nat → Option GetLeavesByHashResponse × Option GoError) :
    Outcome (Response × Option GoError) :=
  let leafHash := hashLeaf byteValue
  match (getLeavesByHash leafHash).2 with
  | some e => .fatal e
  | none =>
    .ok ({ status := statusCode none,
           getLeafResult := (getLeavesByHash leafHash).1,
           getProofResult := none }, none)

/-- `trillian.TreeType`, restricted to the values the code compares against. -/
inductive TreeType where
  | LOG
  | MAP
deriving DecidableEq, BEq, Repr

/-- A `trillian.Tree`: its identifier and type (the other configuration
fields play no role in the reuse logic). -/
structure Tree where
  treeId : Int
  treeType : TreeType
deriving DecidableEq, Repr

/-- `trillian.ListTreesResponse`: the repeated `Tree` field. -/
structure ListTreesResponse where
  tree : List Tree
deriving DecidableEq, Repr

/-- The admin/log-service requests a provisioning call can issue. -/
inductive AdminCall where
  | listTrees
  | createTree
  | initLog
  | initMap
deriving DecidableEq, Repr

/-- Oracle environment for `createAndInitTree` / `createAndInitMap`: the
outcome of `ListTrees`, of `CreateTree`, and of `client.InitLog` /
`client.InitMap` (an optional error). -/
structure ProvisionEnv where
  listTrees : Option ListTreesResponse × Option GoError
  createTree : Option Tree × Option GoError
  initTree : Option GoError

/-- `createAndInitTree`: list all trees and return the first `LOG` tree
unchanged when one exists; otherwise create a tree and initialize it with
`client.InitLog`, surfacing every error.  The second component records which
admin requests were actually issued. -/
def createAndInitTree (env : ProvisionEnv) :
    Outcome (Option Tree × Option GoError) × List AdminCall :=
  match env.listTrees with
  | (_, some e) => (.ok (none, some e), [.listTrees])
  | (none, none) => (.panics, [.listTrees])
  | (some trees, none) =>
    match trees.tree.find? (fun t => t.treeType == TreeType.LOG) with
    | some t => (.ok (some t, none), [.listTrees])
    | none =>
      match env.createTree with
      | (_, some e) => (.ok (none, some e), [.listTrees, .createTree])
      | (t, none) =>
        match env.initTree with
        | some e => (.ok (none, some e), [.listTrees, .createTree, .initLog])
        | none => (.ok (t, none), [.listTrees, .createTree, .initLog])

/-- `createAndInitMap`: identical shape, matching `MAP` trees and finishing
with `client.InitMap`. -/
def createAndInitMap (env : ProvisionEnv) :
    Outcome (Option Tree × Option GoError) × List AdminCall :=
  match env.listTrees with
  | (_, some e) => (.ok (none, some e), [.listTrees])
  | (none, none) => (.panics, [.listTrees])
  | (some trees, none) =>
    match trees.tree.find? (fun t => t.treeType == TreeType.MAP) with
    | some t => (.ok (some t, none), [.listTrees])
    | none =>
      match env.createTree with
      | (_, some e) => (.ok (none, some e), [.listTrees, .createTree])
      | (t, none) =>
        match env.initTree with
        | some e => (.ok (none, some e), [.listTrees, .createTree, .initMap])
        | none => (.ok (t, none), [.listTrees, .createTree, .initMap])

/-- Go's `strings.Contains s sub`: `sub` occurs as a contiguous substring of
`s`. -/
def goStringsContains (s sub : String) : Bool :=
  (List.range (s.data.length + 1)).any fun i => sub.data.isPrefixOf (s.data.drop i)

/-- `IsFileTypeAllowed`: sniff the payload's content type with
`http.DetectContentType` (the oracle `detect`); when the configuration flag
`rekor_server.enforce_text_only` is true, allow the payload exactly when the
detected type contains `"text/plain"`; when the flag is false, always allow.
The error result is nil on every path. -/
def IsFileTypeAllowed (detect : List Nat → String) (enforceTextOnly : Bool)
    (byteLeaf : List Nat) : Bool × Option GoError :=
  let contentType := detect byteLeaf
  if enforceTextOnly then
    if !(goStringsContains contentType "text/plain") then (false, none)
    else (true, none)
  else (true, none)

/-! Theorems. -/

/-- Helper: when some element of `l` fails verification, the proof loop stops
at the first failure, which is itself a verification failure of a member. -/
theorem firstVerifyFailure_of_mem
    (verify : Int → Int → List (List Nat) → List Nat → List Nat → Option GoError)
    (rt : LogRootV1) (lh : List Nat) :
    ∀ (l : List Proof) (p : Proof) (e : GoError), p ∈ l →
      verify p.leafIndex (rt.treeSize : Int) p.hashes rt.rootHash lh = some e →
      ∃ e', firstVerifyFailure verify rt lh l = some e' ∧
        ∃ q, q ∈ l ∧
          verify q.leafIndex (rt.treeSize : Int) q.hashes rt.rootHash lh = some e' := by
  intro l
  induction l with
  | nil => intro p e hp _; exact absurd hp (List.not_mem_nil p)
  | cons hd tl ih =>
    intro p e hp hv
    have hstep : firstVerifyFailure verify rt lh (hd :: tl) =
        match verify hd.leafIndex (rt.treeSize : Int) hd.hashes rt.rootHash lh with
        | some e0 => some e0
        | none => firstVerifyFailure verify rt lh tl := rfl
    cases hfirst : verify hd.leafIndex (rt.treeSize : Int) hd.hashes rt.rootHash lh with
    | some e0 =>
      refine ⟨e0, ?_, hd, List.mem_cons_self _ _, hfirst⟩
      rw [hstep, hfirst]
    | none =>
      rcases List.mem_cons.mp hp with rfl | htl
      · rw [hv] at hfirst; exact Option.noConfusion hfirst
      · rcases ih p e htl hv with ⟨e', heq, q, hq, hqv⟩
        refine ⟨e', ?_, q, List.mem_cons_of_mem _ hq, hqv⟩
        rw [hstep, hfirst, heq]

/-- Helper: a list containing an element satisfying `q` has a first such
element, found by `List.find?`. -/
theorem find_first_of_mem {α : Type} (q : α → Bool) :
    ∀ (l : List α) (t : α), t ∈ l → q t = true → ∃ t0, l.find? q = some t0 := by
  intro l
  induction l with
  | nil => intro t ht _; exact absurd ht (List.not_mem_nil t)
  | cons hd tl ih =>
    intro t ht hq
    cases hhd : q hd with
    | true => exact ⟨hd, by simp [List.find?, hhd]⟩
    | false =>
      rcases List.mem_cons.mp ht with rfl | htl
      · rw [hq] at hhd; exact Bool.noConfusion hhd
      · rcases ih t htl hq with ⟨t0, h0⟩
        exact ⟨t0, by simp [List.find?, hhd, h0]⟩

/-- Claim C1: whenever the root fetch succeeded, the server returned at least
one inclusion proof, and some returned proof fails local re-derivation
against the fetched root (the verifier reports an error on it), `getProof`
returns the empty response together with a verification error — the error of
one of the returned proofs — and never a success (nil-error) result. -/
theorem getProof_verification_failure_returns_error (env : GetProofEnv)
    (rt : LogRootV1) (r : GetInclusionProofByHashResponse) (p : Proof) (e : GoError)
    (hroot : root env.getLatestSignedLogRoot env.unmarshalBinary = .ok (rt, none))
    (hresp : (env.getInclusionProofByHash (env.hashLeaf env.byteValue) rt.treeSize).1 = some r)
    (hp : p ∈ r.proof)
    (hfail : env.verifyInclusionProof p.leafIndex (rt.treeSize : Int) p.hashes
      rt.rootHash (env.hashLeaf env.byteValue) = some e) :
    ∃ e', getProof env = Outcome.ok (Response.empty, some e') ∧
      ∃ q, q ∈ r.proof ∧
        env.verifyInclusionProof q.leafIndex (rt.treeSize : Int) q.hashes
          rt.rootHash (env.hashLeaf env.byteValue) = some e' := by
  rcases firstVerifyFailure_of_mem env.verifyInclusionProof rt
      (env.hashLeaf env.byteValue) r.proof p e hp hfail with ⟨e', heq, q, hq, hqv⟩
  refine ⟨e', ?_, q, hq, hqv⟩
  unfold getProof
  rw [hroot]
  simp [hresp, heq]

/-- Environment exercising claim C1 concretely: a single returned proof that
the verifier rejects. -/
def c1Resp : GetInclusionProofByHashResponse :=
  { proof := [{ leafIndex := 0, hashes := [[1]] }] }

def c1Env : GetProofEnv :=
  { byteValue := [5],
    getLatestSignedLogRoot := (some { signedLogRoot := some { logRoot := [] } }, none),
    unmarshalBinary := fun _ => ({ treeSize := 4, rootHash := [9] }, none),
    hashLeaf := fun b => b,
    getInclusionProofByHash := fun _ _ => (some c1Resp, none),
    verifyInclusionProof := fun _ _ _ _ _ => some { code := 3 } }

/-- Witness for claim C1 at a concrete call. -/
theorem getProof_verification_failure_returns_error_witness :
    ∃ e', getProof c1Env = Outcome.ok (Response.empty, some e') ∧
      ∃ q, q ∈ c1Resp.proof ∧
        c1Env.verifyInclusionProof q.leafIndex ((4 : Nat) : Int) q.hashes [9] [5] = some e' :=
  getProof_verification_failure_returns_error c1Env { treeSize := 4, rootHash := [9] }
    c1Resp { leafIndex := 0, hashes := [[1]] } { code := 3 }
    rfl rfl (by simp [c1Resp]) rfl

/-- Claim C2: when the root fetch succeeded, the inclusion-proof RPC returned
no error, and the server returned zero proofs (either a nil response or a
response with an empty proof list), `getProof` returns the absent-proof
response with status OK and a nil error — neither an error nor a
verification failure. -/
theorem getProof_zero_proofs_is_not_error (env : GetProofEnv) (rt : LogRootV1)
    (hroot : root env.getLatestSignedLogRoot env.unmarshalBinary = .ok (rt, none))
    (herr : (env.getInclusionProofByHash (env.hashLeaf env.byteValue) rt.treeSize).2 = none)
    (hzero :
      (env.getInclusionProofByHash (env.hashLeaf env.byteValue) rt.treeSize).1 = none ∨
      ∃ r, (env.getInclusionProofByHash (env.hashLeaf env.byteValue) rt.treeSize).1 = some r
        ∧ r.proof = []) :
    getProof env =
      Outcome.ok ({ status := 0, getLeafResult := none,
                    getProofResult :=
                      (env.getInclusionProofByHash
                        (env.hashLeaf env.byteValue) rt.treeSize).1 },
        none) := by
  unfold getProof
  rw [hroot]
  rcases hzero with hnone | ⟨r, hr, hempty⟩
  · simp [hnone, herr, statusCode]
  · simp [hr, hempty, herr, statusCode, firstVerifyFailure]

/-- Environment exercising claim C2 concretely: the server answers with an
empty proof list and no error. -/
def c2Env : GetProofEnv :=
  { byteValue := [],
    getLatestSignedLogRoot := (some { signedLogRoot := some { logRoot := [] } }, none),
    unmarshalBinary := fun _ => ({ treeSize := 2, rootHash := [7] }, none),
    hashLeaf := fun b => b,
    getInclusionProofByHash := fun _ _ => (some { proof := [] }, none),
    verifyInclusionProof := fun _ _ _ _ _ => some { code := 3 } }

/-- Witness for claim C2 at a concrete call. -/
theorem getProof_zero_proofs_is_not_error_witness :
    getProof c2Env =
      Outcome.ok ({ status := 0, getLeafResult := none,
                    getProofResult :=
                      (c2Env.getInclusionProofByHash
                        (c2Env.hashLeaf c2Env.byteValue) 2).1 }, none) :=
  getProof_zero_proofs_is_not_error c2Env { treeSize := 2, rootHash := [7] } rfl rfl
    (Or.inr ⟨{ proof := [] }, rfl, rfl⟩)

/-- Environment for the deadline analysis of claim C3: a call whose root
fetch succeeds, so both RPCs of `getProof` are issued. -/
def c3Env : GetProofEnv :=
  { byteValue := [],
    getLatestSignedLogRoot := (some { signedLogRoot := some { logRoot := [] } }, none),
    unmarshalBinary := fun _ => ({ treeSize := 1, rootHash := [0] }, none),
    hashLeaf := fun b => b,
    getInclusionProofByHash := fun _ _ => (none, none),
    verifyInclusionProof := fun _ _ _ _ _ => none }

/-- Claim C3 counterexample: in a `getProof` call that issues both RPCs,
there is no single deadline under which every RPC of the call is issued —
the root fetch is made with `context.Background()` (no deadline) while the
proof fetch carries the 20-second deadline. -/
theorem getProof_no_single_deadline :
    ¬ ∃ d : Nat, ∀ c ∈ getProofRpcContexts c3Env, c.2 = some d := by
  have htr : getProofRpcContexts c3Env =
      [(.getLatestSignedLogRoot, none), (.getInclusionProofByHash, some 20)] := rfl
  rintro ⟨d, h⟩
  have h1 := h (RpcName.getLatestSignedLogRoot, none)
    (by rw [htr]; exact List.mem_cons_self _ _)
  exact Option.noConfusion h1

/-- Claim C3 amended: in every `getProof` call the root fetch is issued
under an unbounded `context.Background()` context, and only the
inclusion-proof fetch (issued when the root fetch returned no error) carries
the 20-second deadline created at the top of `getProof`. -/
theorem getProof_deadline_only_on_proof_fetch (env : GetProofEnv) :
    getProofRpcContexts env = [(.getLatestSignedLogRoot, contextBackground)] ∨
    getProofRpcContexts env =
      [(.getLatestSignedLogRoot, contextBackground),
       (.getInclusionProofByHash, some getProofTimeoutSeconds)] := by
  unfold getProofRpcContexts
  split
  · right; rfl
  · left; rfl

/-- Environment for claim C4: after a successful root fetch, the
inclusion-proof RPC fails with a transport error (gRPC code 14,
UNAVAILABLE) and a nil response. -/
def c4Env : GetProofEnv :=
  { byteValue := [],
    getLatestSignedLogRoot := (some { signedLogRoot := some { logRoot := [] } }, none),
    unmarshalBinary := fun _ => ({ treeSize := 3, rootHash := [1] }, none),
    hashLeaf := fun b => b,
    getInclusionProofByHash := fun _ _ => (none, some { code := 14 }),
    verifyInclusionProof := fun _ _ _ _ _ => none }

/-- Claim C4 counterexample: when the proof-fetch RPC fails with a transport
error, `getProof` does NOT surface it as an error result — it returns a nil
error, reporting the failure only through the status code 14 stored in the
`Response`. -/
theorem getProof_transport_error_returns_nil_error :
    getProof c4Env =
      Outcome.ok ({ status := 14, getLeafResult := none, getProofResult := none },
        none) := rfl

/-- Claim C4 amended: when the root fetch succeeded and the proof-fetch RPC
fails with a transport error and a nil response, `getProof` returns a nil
error; the failure is reported only through the error's gRPC status code
placed in the `Response.status` field. -/
theorem getProof_transport_error_in_status_only (env : GetProofEnv)
    (rt : LogRootV1) (e : GoError)
    (hroot : root env.getLatestSignedLogRoot env.unmarshalBinary = .ok (rt, none))
    (hresp : (env.getInclusionProofByHash (env.hashLeaf env.byteValue) rt.treeSize).1 = none)
    (herr : (env.getInclusionProofByHash (env.hashLeaf env.byteValue) rt.treeSize).2 = some e) :
    getProof env =
      Outcome.ok ({ status := e.code, getLeafResult := none, getProofResult := none },
        none) := by
  unfold getProof
  rw [hroot]
  simp [hresp, herr, statusCode]

/-- Witness for the amended claim C4 at a concrete call. -/
theorem getProof_transport_error_in_status_only_witness :
    getProof c4Env =
      Outcome.ok ({ status := ({ code := 14 } : GoError).code, getLeafResult := none,
                    getProofResult := none },
        none) :=
  getProof_transport_error_in_status_only c4Env { treeSize := 3, rootHash := [1] }
    { code := 14 } rfl rfl rfl

/-- Claim C5: `addLeaf` never returns a transport error of the `QueueLeaf`
RPC to its caller.  With a nil response and a transport error it panics on
the nil dereference; with a non-nil response and a transport error it
returns a nil error; only the duplicate-submission case behaves as the
contract asks, reporting the pre-existing leaf's status code 6
(`AlreadyExists`) with a nil error. -/
theorem addLeaf_swallows_transport_error :
    addLeaf [] (fun _ => (none, some { code := 14 })) = Outcome.panics ∧
    addLeaf [0] (fun _ =>
        (some { queuedLeaf := some { status := some { code := 0 } } },
         some { code := 14 })) =
      Outcome.ok ({ status := 0, getLeafResult := none, getProofResult := none },
        none) ∧
    addLeaf [2] (fun _ =>
        (some { queuedLeaf := some { status := some { code := 6 } } }, none)) =
      Outcome.ok ({ status := 6, getLeafResult := none, getProofResult := none },
        none) :=
  ⟨rfl, rfl, rfl⟩

/-- Claim C6: when the `GetLeavesByHash` RPC fails, `getLeaf` hands the error
to `logging.Logger.Fatal`, terminating the process instead of returning the
failure; a successful lookup with zero matching leaves (not found) is
returned as a normal OK result with a nil error. -/
theorem getLeaf_transport_error_is_process_fatal :
    getLeaf [] (fun b => b) (fun _ => (none, some { code := 14 })) =
      Outcome.fatal { code := 14 } ∧
    getLeaf [] (fun b => b) (fun _ => (some { leaves := [] }, none)) =
      Outcome.ok ({ status := 0, getLeafResult := some { leaves := [] },
                    getProofResult := none },
        none) :=
  ⟨rfl, rfl⟩

/-- Claim C7: provisioning is idempotent.  When the service's tree listing
already contains a tree of the requested kind, `createAndInitTree` (for
`LOG`) and `createAndInitMap` (for `MAP`) return the first tree of that kind
unchanged, issue only the `ListTrees` request (no create, no initialize),
and any second call against the same service state returns the same tree. -/
theorem provisioning_reuses_first_matching_tree :
    (∀ (env : ProvisionEnv) (ts : ListTreesResponse) (t : Tree),
      env.listTrees = (some ts, none) → t ∈ ts.tree → t.treeType = TreeType.LOG →
      ∃ t0, ts.tree.find? (fun x => x.treeType == TreeType.LOG) = some t0 ∧
        createAndInitTree env = (.ok (some t0, none), [AdminCall.listTrees]) ∧
        ∀ env2 : ProvisionEnv, env2.listTrees = (some ts, none) →
          (createAndInitTree env2).1 = .ok (some t0, none)) ∧
    (∀ (env : ProvisionEnv) (ts : ListTreesResponse) (t : Tree),
      env.listTrees = (some ts, none) → t ∈ ts.tree → t.treeType = TreeType.MAP →
      ∃ t0, ts.tree.find? (fun x => x.treeType == TreeType.MAP) = some t0 ∧
        createAndInitMap env = (.ok (some t0, none), [AdminCall.listTrees]) ∧
        ∀ env2 : ProvisionEnv, env2.listTrees = (some ts, none) →
          (createAndInitMap env2).1 = .ok (some t0, none)) := by
  constructor
  · intro env ts t hl ht hty
    rcases find_first_of_mem (fun x => x.treeType == TreeType.LOG) ts.tree t ht
        (by show (t.treeType == TreeType.LOG) = true; rw [hty]; rfl) with ⟨t0, hfind⟩
    refine ⟨t0, hfind, ?_, ?_⟩
    · unfold createAndInitTree
      rw [hl]
      simp [hfind]
    · intro env2 hl2
      unfold createAndInitTree
      rw [hl2]
      simp [hfind]
  · intro env ts t hl ht hty
    rcases find_first_of_mem (fun x => x.treeType == TreeType.MAP) ts.tree t ht
        (by show (t.treeType == TreeType.MAP) = true; rw [hty]; rfl) with ⟨t0, hfind⟩
    refine ⟨t0, hfind, ?_, ?_⟩
    · unfold createAndInitMap
      rw [hl]
      simp [hfind]
    · intro env2 hl2
      unfold createAndInitMap
      rw [hl2]
      simp [hfind]

/-- A concrete service state for claim C7: one existing active LOG tree. -/
def c7Tree : Tree := { treeId := 42, treeType := TreeType.LOG }

def c7Env : ProvisionEnv :=
  { listTrees := (some { tree := [c7Tree] }, none),
    createTree := (none, some { code := 1 }),
    initTree := none }

/-- Witness for claim C7 at a concrete service state. -/
theorem provisioning_reuses_first_matching_tree_witness :
    ∃ t0, ({ tree := [c7Tree] } : ListTreesResponse).tree.find?
        (fun x => x.treeType == TreeType.LOG) = some t0 ∧
      createAndInitTree c7Env = (.ok (some t0, none), [AdminCall.listTrees]) ∧
      ∀ env2 : ProvisionEnv, env2.listTrees = (some { tree := [c7Tree] }, none) →
        (createAndInitTree env2).1 = .ok (some t0, none) :=
  provisioning_reuses_first_matching_tree.1 c7Env { tree := [c7Tree] } c7Tree rfl
    (List.mem_cons_self _ _) rfl

/-- Claim C8: with `enforce_text_only` false, `IsFileTypeAllowed` returns
`(true, nil)` for every payload and every content-type sniffer, including
the zero-length payload. -/
theorem IsFileTypeAllowed_flag_false_always_allows
    (detect : List Nat → String) (p : List Nat) :
    IsFileTypeAllowed detect false p = (true, none) := rfl

/-- Claim C9: with `enforce_text_only` true, `IsFileTypeAllowed` allows a
payload exactly when the detected content type contains `"text/plain"` as a
substring, and the returned error is nil in both cases. -/
theorem IsFileTypeAllowed_flag_true_iff_text_plain
    (detect : List Nat → String) (p : List Nat) :
    ((IsFileTypeAllowed detect true p).1 = true ↔
      goStringsContains (detect p) "text/plain" = true) ∧
    (IsFileTypeAllowed detect true p).2 = none := by
  cases h : goStringsContains (detect p) "text/plain" <;>
    simp [IsFileTypeAllowed, h]

/-- Claim C10 counterexample: when the `QueueLeaf` RPC fails with a nil
response and a non-nil transport error, `addLeaf` panics on the
`resp.QueuedLeaf` dereference instead of returning a `Response`. -/
theorem addLeaf_nil_response_panics :
    addLeaf [1] (fun _ => (none, some { code := 14 })) = Outcome.panics := rfl

/-- Claim C10 amended: `addLeaf` returns a `Response` without panicking
whenever the `QueueLeaf` response is non-nil — even alongside a non-nil
error, and even when the queued leaf or its status is nil, since the getter
chain is nil-safe; but when the response is nil (the usual shape of a
transport failure) it panics on the nil dereference. -/
theorem addLeaf_nonnil_response_returns (byteValue : List Nat)
    (queueLeaf : List Nat → Option QueueLeafResponse × Option GoError)
    (r : QueueLeafResponse) (h : (queueLeaf byteValue).1 = some r) :
    addLeaf byteValue queueLeaf =
      Outcome.ok ({ status := getQueuedStatusCode r.queuedLeaf,
                    getLeafResult := none, getProofResult := none },
        none) := by
  unfold addLeaf
  rw [h]

/-- Witness for the amended claim C10: a non-nil response whose queued leaf
is nil, arriving together with a transport error, still yields a `Response`
with the zero status code. -/
theorem addLeaf_nonnil_response_returns_witness :
    addLeaf [] (fun _ => (some { queuedLeaf := none }, some { code := 14 })) =
      Outcome.ok ({ status := 0, getLeafResult := none, getProofResult := none },
        none) :=
  addLeaf_nonnil_response_returns [] _ { queuedLeaf := none } rfl

end RekorServer
